import Mathlib

/-!
# Login / consent orchestration of the identity-platform login UI

A shallow embedding of `cmd/main.go`: the scope-gated claims derivation
(`getUserClaims`), the response passthrough (`writeResponse`) and the five
handlers that drive the identity provider and the authorization server
(`handleCreateFlow`, `handleLoginFlow`, `handleUpdateFlow`, `handleKratosError`,
`handleConsent`).

Go values are embedded as follows.

* `string` is `String`; `[]byte` is `List UInt8`; `[]T` is `List T`.
* `map[string]T` is an association list read by `GoMap.get` (first binding of
  the key) and written by `GoMap.set` (overwrite in place, else append); a key
  is bound at most once in every map built by `GoMap.set`.
* `interface{}` is the tagged value type `Any`.
* A generated-client call `v, resp, err := ...Execute()` is an `ExecResult`.
* A handler is a function from the upstream behaviour, the request and the
  response writer to an `Outcome`: the upstream calls it made, in order, the
  final response writer and how it ended.
-/

namespace KratosUI

/-! ## Go values -/

/-- A Go `interface{}` holding decoded JSON. -/
inductive Any where
  | nil : Any
  | bool (b : Bool) : Any
  | number (lit : String) : Any
  | string (s : String) : Any
  | slice (xs : List Any) : Any
  | map (kvs : List (String × Any)) : Any

/-- The Go map read `v, ok := m[k]`: `some v` when `ok`, `none` otherwise. -/
def GoMap.get {V : Type} : List (String × V) → String → Option V
  | [], _ => none
  | (k', v') :: m, k => if k' = k then some v' else GoMap.get m k

/-- The Go map write `m[k] = v`. -/
def GoMap.set {V : Type} : List (String × V) → String → V → List (String × V)
  | [], k, v => [(k, v)]
  | (k', v') :: m, k, v => if k' = k then (k, v) :: m else (k', v') :: GoMap.set m k v

/-- The keys bound in a map. -/
def GoMap.keys {V : Type} (m : List (String × V)) : List String :=
  m.map Prod.fst

/-! ## Data model -/

/-- The fields of `kratos_client.Identity` the handlers read. -/
structure Identity where
  Id : String
  Traits : Any

/-- The fields of `kratos_client.Session` the handlers read. -/
structure Session where
  Identity : Identity

/-- The fields of `hydra_client.OAuth2ConsentRequest` the handlers read. -/
structure OAuth2ConsentRequest where
  Challenge : String
  RequestedScope : List String
  RequestedAccessTokenAudience : List String

/-- The table `oidcScopeMapping`. -/
def oidcScopeMapping : List (String × List String) :=
  [ ("openid", ["sub"]),
    ("profile",
      [ "name",
        "family_name",
        "given_name",
        "middle_name",
        "nickname",
        "preferred_username",
        "profile",
        "picture",
        "website",
        "gender",
        "birthdate",
        "zoneinfo",
        "locale",
        "updated_at" ]),
    ("email", ["email", "email_verified"]),
    ("address", ["address"]),
    ("phone", ["phone_number", "phone_number_verified"]) ]

/-- The type assertion `traits, ok := i.Traits.(map[string]interface{})`:
the map when the assertion holds, the nil map otherwise. -/
def assertTraits : Any → List (String × Any) × Bool
  | Any.map m => (m, true)
  | _ => ([], false)

/-- The inner loop of `getUserClaims`: `for _, c := range cs`. -/
def copyClaims (traits : List (String × Any)) (cs : List String)
    (ret : List (String × Any)) : List (String × Any) :=
  cs.foldl
    (fun ret c =>
      match GoMap.get traits c with
      | some val => GoMap.set ret c val
      | none => ret)
    ret

/-- The function `getUserClaims`. -/
def getUserClaims (i : Identity) (cr : OAuth2ConsentRequest) : List (String × Any) :=
  let ret : List (String × Any) := []
  let traits := (assertTraits i.Traits).1
  cr.RequestedScope.foldl
    (fun ret s =>
      match GoMap.get oidcScopeMapping s with
      | none => ret
      | some cs => copyClaims traits cs ret)
    ret

/-- A claim name is released by a list of scopes when the table lists it under
one of them. -/
def Released (scopes : List String) (c : String) : Prop :=
  ∃ s ∈ scopes, ∃ cs, GoMap.get oidcScopeMapping s = some cs ∧ c ∈ cs

/-! ## HTTP messages and the response writer -/

/-- A Go `http.Header` or `url.Values`: `map[string][]string`. -/
abbrev Values := List (String × List String)

/-- The method `url.Values.Get`: the first value of the key, `""` when there is none. -/
def Values.Get (v : Values) (key : String) : String :=
  match GoMap.get v key with
  | some (x :: _) => x
  | _ => ""

/-- The token bytes of a header field name (`validHeaderFieldByte`). -/
def validHeaderFieldByte (c : Char) : Bool :=
  c.isAlphanum || c.toNat ∈ [33, 35, 36, 37, 38, 39, 42, 43, 45, 46, 94, 95, 96, 124, 126]

/-- The casing loop of `canonicalMIMEHeaderKey`: upper case at the start and
after each dash, lower case elsewhere. -/
def canonicalCase : Bool → List Char → List Char
  | _, [] => []
  | upper, c :: cs =>
    let c' := if upper then c.toUpper else c.toLower
    c' :: canonicalCase (c' == '-') cs

/-- Go's `textproto.CanonicalMIMEHeaderKey`: a key holding a byte that is not
a token byte is returned unchanged. -/
def CanonicalMIMEHeaderKey (s : String) : String :=
  if s.toList.all validHeaderFieldByte then String.mk (canonicalCase true s.toList) else s

/-- The method `http.Header.Set`: `h[CanonicalMIMEHeaderKey(key)] = []string{value}`. -/
def Header.Set (h : Values) (key value : String) : Values :=
  GoMap.set h (CanonicalMIMEHeaderKey key) [value]

/-- The outcome of `ioutil.ReadAll(r.Body)`: the bytes read and the error, if any. -/
structure ReadCloser where
  data : List UInt8
  err : Option String

/-- The fields of `http.Response` the handlers read. -/
structure Response where
  StatusCode : Int
  Header : Values
  Body : ReadCloser

/-- An `http.ResponseWriter`, as a recorder: the header map `w.Header()`, the
status line and header block sent by the first `WriteHeader`, and the body
bytes written so far. Every status code from 100 to 999 is recorded as the
final one. -/
structure ResponseWriter where
  header : Values
  wrote : Option (Int × Values)
  body : List UInt8

/-- The method `WriteHeader`: a second call has no effect; a first call
panics on a status code below 100 or above 999 (`checkWriteHeaderCode`), which
is `none` here, and otherwise sends the status code with the current header
map. -/
def ResponseWriter.WriteHeader (w : ResponseWriter) (statusCode : Int) :
    Option ResponseWriter :=
  match w.wrote with
  | some _ => some w
  | none =>
    if statusCode < 100 ∨ statusCode > 999 then none
    else some { w with wrote := some (statusCode, w.header) }

/-- The method `Write`: an implicit `WriteHeader(200)` when no status was sent,
then the bytes. -/
def ResponseWriter.Write (w : ResponseWriter) (b : List UInt8) : ResponseWriter :=
  let w : ResponseWriter :=
    match w.wrote with
    | some _ => w
    | none => { w with wrote := some (200, w.header) }
  { w with body := w.body ++ b }

/-- The statement `w.Header().Set(k, v)`. -/
def ResponseWriter.SetHeader (w : ResponseWriter) (k v : String) : ResponseWriter :=
  { w with header := Header.Set w.header k v }

/-- How a handler ended: it returned, it panicked (a nil pointer was
dereferenced, or `WriteHeader` refused the status code), or `log.Fatalf` ended
the process. -/
inductive Exit where
  | returned : Exit
  | panicked : Exit
  | fatal : Exit
  deriving DecidableEq

/-- The function `writeResponse`: the writer it leaves and how it ended: with
a panic in `WriteHeader`, with `log.Fatalf` after a failed body read, or by
returning. The header keys are visited in the order of the association list. -/
def writeResponse (w : ResponseWriter) (r : Response) : ResponseWriter × Exit :=
  let w := r.Header.foldl (fun w kvs => kvs.2.foldl (fun w v => w.SetHeader kvs.1 v) w) w
  match w.WriteHeader r.StatusCode with
  | none => (w, Exit.panicked)
  | some w =>
    match r.Body.err with
    | some _ => (w, Exit.fatal)
    | none => (w.Write r.Body.data, Exit.returned)

/-- An `http.Cookie`. -/
structure Cookie where
  Name : String
  Value : String

/-- The fields of `url.URL` the handlers read; `Query` is `r.URL.Query()`. -/
structure URL where
  Scheme : String
  Path : String
  Query : Values

/-- The fields of `http.Request` the handlers read; `Cookies` is `r.Cookies()`. -/
structure Request where
  URL : URL
  Host : String
  Cookies : List Cookie
  Body : List UInt8

/-- The method `r.Cookie(name)`: the first cookie of that name, `none` for `ErrNoCookie`. -/
def Request.Cookie (r : Request) (name : String) : Option Cookie :=
  r.Cookies.find? (fun c => decide (c.Name = name))

/-- The function `cookiesToString`. -/
def cookiesToString (cookies : List Cookie) : String :=
  String.intercalate "; " (cookies.map (fun c => c.Name ++ "=" ++ c.Value))

/-- Go's `strconv.ParseBool`: the value and the error, if any. -/
def ParseBool (str : String) : Bool × Option String :=
  if str ∈ ["1", "t", "T", "TRUE", "true", "True"] then (true, none)
  else if str ∈ ["0", "f", "F", "FALSE", "false", "False"] then (false, none)
  else (false, some "ErrSyntax")

/-! ## The two upstream clients -/

/-- The result `v, resp, err := ...Execute()` of a generated-client call:
`ok` when `err == nil` and `v != nil`, with the decoded value and the
response; `failed` when `err != nil`, with the response when there is one
(`nil` after a transport failure); `empty` when `err == nil` and `v == nil`,
which the client returns for a response without a body to decode. -/
inductive ExecResult (α : Type) where
  | ok (value : α) (resp : Response) : ExecResult α
  | failed (resp : Option Response) (err : String) : ExecResult α
  | empty (resp : Response) : ExecResult α

/-- The `*http.Response` of a result, `none` when it is `nil`. -/
def ExecResult.resp {α : Type} : ExecResult α → Option Response
  | ExecResult.ok _ resp => some resp
  | ExecResult.failed resp _ => resp
  | ExecResult.empty resp => some resp

/-- The `error` of a result, `none` when it is `nil`. -/
def ExecResult.err {α : Type} : ExecResult α → Option String
  | ExecResult.ok _ _ => none
  | ExecResult.failed _ err => some err
  | ExecResult.empty _ => none

/-- The status code of a result that carries a response. -/
def ExecResult.status {α : Type} (res : ExecResult α) : Option Int :=
  res.resp.map Response.StatusCode

/-- The contract of the generated clients: a response whose status code is 300
or more is returned together with an error. -/
def ExecResult.Contract {α : Type} : ExecResult α → Prop
  | ExecResult.ok _ resp => resp.StatusCode < 300
  | ExecResult.failed _ _ => True
  | ExecResult.empty resp => resp.StatusCode < 300

/-- The body built by `hydra_client.NewAcceptOAuth2LoginRequest(subject)`. -/
structure AcceptOAuth2LoginRequest where
  Subject : String

/-- The function `hydra_client.NewAcceptOAuth2LoginRequest`. -/
def NewAcceptOAuth2LoginRequest (subject : String) : AcceptOAuth2LoginRequest :=
  ⟨subject⟩

/-- The type `hydra_client.AcceptOAuth2ConsentRequestSession`. -/
structure AcceptOAuth2ConsentRequestSession where
  AccessToken : Any
  IdToken : Any

/-- The function `hydra_client.NewAcceptOAuth2ConsentRequestSession`. -/
def NewAcceptOAuth2ConsentRequestSession : AcceptOAuth2ConsentRequestSession :=
  ⟨Any.nil, Any.nil⟩

/-- The method `SetIdToken`. -/
def AcceptOAuth2ConsentRequestSession.SetIdToken (o : AcceptOAuth2ConsentRequestSession)
    (v : Any) : AcceptOAuth2ConsentRequestSession :=
  { o with IdToken := v }

/-- The fields of `hydra_client.AcceptOAuth2ConsentRequest` the handlers set. -/
structure AcceptOAuth2ConsentRequest where
  GrantAccessTokenAudience : List String
  GrantScope : List String
  Session : Option AcceptOAuth2ConsentRequestSession

/-- The function `hydra_client.NewAcceptOAuth2ConsentRequest`. -/
def NewAcceptOAuth2ConsentRequest : AcceptOAuth2ConsentRequest :=
  ⟨[], [], none⟩

/-- The method `SetGrantScope`. -/
def AcceptOAuth2ConsentRequest.SetGrantScope (o : AcceptOAuth2ConsentRequest)
    (v : List String) : AcceptOAuth2ConsentRequest :=
  { o with GrantScope := v }

/-- The method `SetGrantAccessTokenAudience`. -/
def AcceptOAuth2ConsentRequest.SetGrantAccessTokenAudience (o : AcceptOAuth2ConsentRequest)
    (v : List String) : AcceptOAuth2ConsentRequest :=
  { o with GrantAccessTokenAudience := v }

/-- The method `SetSession`. -/
def AcceptOAuth2ConsentRequest.SetSession (o : AcceptOAuth2ConsentRequest)
    (v : AcceptOAuth2ConsentRequestSession) : AcceptOAuth2ConsentRequest :=
  { o with Session := some v }

/-- The value `hydra_client.OAuth2RedirectTo`. -/
structure OAuth2RedirectTo where
  RedirectTo : String

/-- The value `kratos_client.LoginFlow`; the handlers discard it. -/
structure LoginFlow where
  Id : String

/-- The value `kratos_client.FlowError`; the handler discards it. -/
structure FlowError where
  Id : String

/-- The fields of `kratos_client.UpdateLoginFlowWithOidcMethod`. -/
structure UpdateLoginFlowWithOidcMethod where
  CsrfToken : Option String
  Method : String
  Provider : String
  Traits : List (String × Any)

/-- The request builder `kratos_client.ApiCreateBrowserLoginFlowRequest`: every
parameter is unset until its setter is called. -/
structure ApiCreateBrowserLoginFlowRequest where
  refresh : Option Bool
  aal : Option String
  returnTo : Option String
  cookie : Option String
  loginChallenge : Option String

/-- The builder returned by `kratos.FrontendApi.CreateBrowserLoginFlow(ctx)`. -/
def CreateBrowserLoginFlow : ApiCreateBrowserLoginFlowRequest :=
  ⟨none, none, none, none, none⟩

/-- The setter `Refresh`. -/
def ApiCreateBrowserLoginFlowRequest.Refresh (r : ApiCreateBrowserLoginFlowRequest)
    (refresh : Bool) : ApiCreateBrowserLoginFlowRequest :=
  { r with refresh := some refresh }

/-- The setter `Aal`. -/
def ApiCreateBrowserLoginFlowRequest.Aal (r : ApiCreateBrowserLoginFlowRequest)
    (aal : String) : ApiCreateBrowserLoginFlowRequest :=
  { r with aal := some aal }

/-- The setter `ReturnTo`. -/
def ApiCreateBrowserLoginFlowRequest.ReturnTo (r : ApiCreateBrowserLoginFlowRequest)
    (returnTo : String) : ApiCreateBrowserLoginFlowRequest :=
  { r with returnTo := some returnTo }

/-- The setter `Cookie`. -/
def ApiCreateBrowserLoginFlowRequest.Cookie (r : ApiCreateBrowserLoginFlowRequest)
    (cookie : String) : ApiCreateBrowserLoginFlowRequest :=
  { r with cookie := some cookie }

/-- The setter `LoginChallenge`. -/
def ApiCreateBrowserLoginFlowRequest.LoginChallenge (r : ApiCreateBrowserLoginFlowRequest)
    (loginChallenge : String) : ApiCreateBrowserLoginFlowRequest :=
  { r with loginChallenge := some loginChallenge }

/-- An upstream operation together with the parameters it was executed with. -/
inductive Call where
  | ToSession (cookie : String) : Call
  | AcceptOAuth2LoginRequest (loginChallenge : String) (body : AcceptOAuth2LoginRequest) : Call
  | CreateBrowserLoginFlow (req : ApiCreateBrowserLoginFlowRequest) : Call
  | GetLoginFlow (id cookie : String) : Call
  | UpdateLoginFlow (flow : String) (body : UpdateLoginFlowWithOidcMethod) (cookie : String) : Call
  | GetFlowError (id : String) : Call
  | GetOAuth2ConsentRequest (consentChallenge : String) : Call
  | AcceptOAuth2ConsentRequest (consentChallenge : String) (body : AcceptOAuth2ConsentRequest) : Call

/-- What lies outside the handlers: the answers of the identity provider and
of the authorization server to each operation, the process environment, and
the JSON codec. -/
structure Upstream where
  ToSession : String → ExecResult Session
  AcceptOAuth2LoginRequest : String → AcceptOAuth2LoginRequest → ExecResult OAuth2RedirectTo
  CreateBrowserLoginFlow : ApiCreateBrowserLoginFlowRequest → ExecResult LoginFlow
  GetLoginFlow : String → String → ExecResult LoginFlow
  UpdateLoginFlow : String → UpdateLoginFlowWithOidcMethod → String → ExecResult LoginFlow
  GetFlowError : String → ExecResult FlowError
  GetOAuth2ConsentRequest : String → ExecResult OAuth2ConsentRequest
  AcceptOAuth2ConsentRequest : String → AcceptOAuth2ConsentRequest → ExecResult OAuth2RedirectTo
  Getenv : String → String
  Decode : List UInt8 → UpdateLoginFlowWithOidcMethod
  MarshalJSON : OAuth2RedirectTo → Except String (List UInt8)

/-- What a handler did: the upstream calls it made, in order; the response it
handed to `writeResponse`, if any; the response writer it left; how it ended. -/
structure Outcome where
  calls : List Call
  forwarded : Option Response
  w : ResponseWriter
  exit : Exit

/-- The statement `writeResponse(w, resp); return` at the end of a handler. -/
def forward (calls : List Call) (w : ResponseWriter) (resp : Response) : Outcome :=
  ⟨calls, some resp, (writeResponse w resp).1, (writeResponse w resp).2⟩

/-! ## The handlers -/

/-- The function `getBaseURL`. -/
def getBaseURL (up : Upstream) (r : Request) : String :=
  if up.Getenv "BASE_URL" ≠ "" then up.Getenv "BASE_URL"
  else r.URL.Scheme ++ "://" ++ r.Host ++ "/" ++ r.URL.Path

/-- The statements `refresh, err := strconv.ParseBool(q.Get("refresh"))` and
`if err == nil { refresh = false }` of `handleCreateFlow`. -/
def parseRefresh (q : Values) : Bool :=
  let p := ParseBool (q.Get "refresh")
  if p.2 = none then false else p.1

/-- The request `handleCreateFlow` builds for `CreateBrowserLoginFlow`, setter
by setter in the order of the source. -/
def createFlowRequest (up : Upstream) (r : Request) : ApiCreateBrowserLoginFlowRequest :=
  let q := r.URL.Query
  let refresh := parseRefresh q
  (((((CreateBrowserLoginFlow.Aal (q.Get "aal")).ReturnTo (q.Get "return_to")).LoginChallenge
    (q.Get "login_challenge")).Refresh refresh).ReturnTo
    (getBaseURL up r ++ "/login?login_challenge=" ++ q.Get "login_challenge")).Cookie
    (cookiesToString r.Cookies)

/-- The second half of `handleCreateFlow`, from the parsing of `refresh` on:
the flow-creation path. -/
def createFlow (up : Upstream) (r : Request) (w : ResponseWriter) (calls : List Call) : Outcome :=
  let req := createFlowRequest up r
  let calls := calls ++ [Call.CreateBrowserLoginFlow req]
  match up.CreateBrowserLoginFlow req with
  | ExecResult.failed _ _ => ⟨calls, none, w, Exit.returned⟩
  | ExecResult.ok _ resp => forward calls w resp
  | ExecResult.empty resp => forward calls w resp

/-- The function `handleCreateFlow`. After a session check without error and
without a session, `session.Identity.Id` dereferences `nil`. -/
def handleCreateFlow (up : Upstream) (r : Request) (w : ResponseWriter) : Outcome :=
  let q := r.URL.Query
  match r.Cookie "ory_kratos_session" with
  | none => createFlow up r w []
  | some _ =>
    let cookie := cookiesToString r.Cookies
    let calls := [Call.ToSession cookie]
    match (up.ToSession cookie).resp with
    | none => ⟨calls, none, w, Exit.panicked⟩
    | some session_resp =>
      if session_resp.StatusCode ≠ 401 then
        match up.ToSession cookie with
        | ExecResult.failed _ _ => createFlow up r w calls
        | ExecResult.empty _ => ⟨calls, none, w, Exit.panicked⟩
        | ExecResult.ok session _ =>
          let accept := NewAcceptOAuth2LoginRequest session.Identity.Id
          let calls := calls ++ [Call.AcceptOAuth2LoginRequest (q.Get "login_challenge") accept]
          match up.AcceptOAuth2LoginRequest (q.Get "login_challenge") accept with
          | ExecResult.failed _ _ => ⟨calls, none, w, Exit.returned⟩
          | ExecResult.ok _ resp => forward calls w resp
          | ExecResult.empty resp => forward calls w resp
      else createFlow up r w calls

/-- The tail shared by `handleLoginFlow` and `handleUpdateFlow`:
`if e != nil && resp.StatusCode != 422 { return }` and then `writeResponse(w, resp)`. -/
def forwardUnless422 (calls : List Call) (w : ResponseWriter) (res : ExecResult LoginFlow) :
    Outcome :=
  match res with
  | ExecResult.ok _ resp => forward calls w resp
  | ExecResult.empty resp => forward calls w resp
  | ExecResult.failed none _ => ⟨calls, none, w, Exit.panicked⟩
  | ExecResult.failed (some resp) _ =>
    if resp.StatusCode ≠ 422 then ⟨calls, none, w, Exit.returned⟩
    else forward calls w resp

/-- The function `handleLoginFlow`. -/
def handleLoginFlow (up : Upstream) (r : Request) (w : ResponseWriter) : Outcome :=
  let q := r.URL.Query
  let id := q.Get "id"
  let cookie := cookiesToString r.Cookies
  forwardUnless422 [Call.GetLoginFlow id cookie] w (up.GetLoginFlow id cookie)

/-- The function `handleUpdateFlow`; `parseBody` logs a decoding error and the
handler goes on with the body as decoded. -/
def handleUpdateFlow (up : Upstream) (r : Request) (w : ResponseWriter) : Outcome :=
  let q := r.URL.Query
  let body := up.Decode r.Body
  let flow := q.Get "flow"
  let cookie := cookiesToString r.Cookies
  forwardUnless422 [Call.UpdateLoginFlow flow body cookie] w (up.UpdateLoginFlow flow body cookie)

/-- The function `handleKratosError`. -/
def handleKratosError (up : Upstream) (r : Request) (w : ResponseWriter) : Outcome :=
  let q := r.URL.Query
  let id := q.Get "id"
  let calls := [Call.GetFlowError id]
  match up.GetFlowError id with
  | ExecResult.failed _ _ => ⟨calls, none, w, Exit.returned⟩
  | ExecResult.ok _ resp => forward calls w resp
  | ExecResult.empty resp => forward calls w resp

/-- The function `handleConsent`. Past the two error checks,
`session.Identity`, `*consent` and `accept.MarshalJSON()` dereference `nil`
when the call returned no value. -/
def handleConsent (up : Upstream) (r : Request) (w : ResponseWriter) : Outcome :=
  let q := r.URL.Query
  let cookie := cookiesToString r.Cookies
  let calls := [Call.ToSession cookie]
  match up.ToSession cookie with
  | ExecResult.failed _ _ => ⟨calls, none, w, Exit.returned⟩
  | ExecResult.empty _ =>
    let challenge := q.Get "consent_challenge"
    let calls := calls ++ [Call.GetOAuth2ConsentRequest challenge]
    match up.GetOAuth2ConsentRequest challenge with
    | ExecResult.failed _ _ => ⟨calls, none, w, Exit.returned⟩
    | ExecResult.empty _ => ⟨calls, none, w, Exit.panicked⟩
    | ExecResult.ok _ _ => ⟨calls, none, w, Exit.panicked⟩
  | ExecResult.ok session _ =>
    let challenge := q.Get "consent_challenge"
    let calls := calls ++ [Call.GetOAuth2ConsentRequest challenge]
    match up.GetOAuth2ConsentRequest challenge with
    | ExecResult.failed _ _ => ⟨calls, none, w, Exit.returned⟩
    | ExecResult.empty _ => ⟨calls, none, w, Exit.panicked⟩
    | ExecResult.ok consent _ =>
      let consent_session := NewAcceptOAuth2ConsentRequestSession.SetIdToken
        (Any.map (getUserClaims session.Identity consent))
      let accept_consent_req :=
        ((NewAcceptOAuth2ConsentRequest.SetGrantScope consent.RequestedScope).SetGrantAccessTokenAudience
          consent.RequestedAccessTokenAudience).SetSession consent_session
      let calls := calls ++ [Call.AcceptOAuth2ConsentRequest challenge accept_consent_req]
      match up.AcceptOAuth2ConsentRequest challenge accept_consent_req with
      | ExecResult.failed _ _ => ⟨calls, none, w, Exit.returned⟩
      | ExecResult.empty _ => ⟨calls, none, w, Exit.panicked⟩
      | ExecResult.ok accept _ =>
        match up.MarshalJSON accept with
        | Except.error _ => ⟨calls, none, w, Exit.returned⟩
        | Except.ok resp =>
          match w.WriteHeader 200 with
          | none => ⟨calls, none, w, Exit.panicked⟩
          | some w => ⟨calls, none, w.Write resp, Exit.returned⟩

/-- The passthrough rule of `handleLoginFlow` and `handleUpdateFlow`, for the
upstream result `res`, the writer `w` the handler started from and the
outcome `o` of the handler: a response is handed to `writeResponse` exactly
when the call returned no error or the status code is 422; it is then the
upstream response and the writer is the one `writeResponse` leaves; otherwise
the writer is untouched; and a 422 whose body can be read reaches a fresh
writer with its status code and its body. -/
def Passthrough422 (res : ExecResult LoginFlow) (w : ResponseWriter) (o : Outcome) : Prop :=
  (o.forwarded ≠ none ↔ res.err = none ∨ res.status = some 422) ∧
  (∀ resp, o.forwarded = some resp →
    res.resp = some resp ∧ o.w = (writeResponse w resp).1 ∧ o.exit = (writeResponse w resp).2) ∧
  (o.forwarded = none → o.w = w) ∧
  (∀ resp, res.resp = some resp → resp.StatusCode = 422 → w.wrote = none → resp.Body.err = none →
    o.w.wrote.map Prod.fst = some 422 ∧ o.w.body = w.body ++ resp.Body.data)

/-! ## Sample inputs -/

/-- A response with a status code and a readable body, and no header. -/
def plainResponse (status : Int) (body : List UInt8) : Response :=
  ⟨status, [], ⟨body, none⟩⟩

/-- A writer nothing was written to. -/
def freshWriter : ResponseWriter :=
  ⟨[], none, []⟩

/-- An upstream out of reach: every operation ends in a transport failure,
no environment variable is set. -/
def offline : Upstream :=
  ⟨fun _ => ExecResult.failed none "connection refused",
    fun _ _ => ExecResult.failed none "connection refused",
    fun _ => ExecResult.failed none "connection refused",
    fun _ _ => ExecResult.failed none "connection refused",
    fun _ _ _ => ExecResult.failed none "connection refused",
    fun _ => ExecResult.failed none "connection refused",
    fun _ => ExecResult.failed none "connection refused",
    fun _ _ => ExecResult.failed none "connection refused",
    fun _ => "",
    fun _ => ⟨none, "", "", []⟩,
    fun _ => Except.ok []⟩

/-- An upstream with a live session for the identity `u1` that accepts every
login and consent challenge. -/
def signedIn : Upstream :=
  { offline with
    ToSession := fun _ =>
      ExecResult.ok ⟨⟨"u1", Any.map [("sub", Any.string "u1"), ("email", Any.string "e@x.com")]⟩⟩
        (plainResponse 200 [])
    AcceptOAuth2LoginRequest := fun _ _ =>
      ExecResult.ok ⟨"https://hydra.example/next"⟩ (plainResponse 200 [123, 125])
    GetOAuth2ConsentRequest := fun challenge =>
      ExecResult.ok ⟨challenge, ["openid", "email"], ["api"]⟩ (plainResponse 200 [])
    AcceptOAuth2ConsentRequest := fun _ _ =>
      ExecResult.ok ⟨"https://hydra.example/next"⟩ (plainResponse 200 []) }

/-- The upstream `signedIn`, where the answer to accept-login carries a
`Set-Cookie` header with the two values `a=1` and `b=2`. -/
def signedInTwoCookies : Upstream :=
  { signedIn with
    AcceptOAuth2LoginRequest := fun _ _ =>
      ExecResult.ok ⟨"https://hydra.example/next"⟩
        ⟨200, [("Set-Cookie", ["a=1", "b=2"])], ⟨[123, 125], none⟩⟩ }

/-- An upstream whose session check answers 401 and which creates login flows. -/
def signedOut : Upstream :=
  { offline with
    ToSession := fun _ => ExecResult.failed (some (plainResponse 401 [])) "401 Unauthorized"
    CreateBrowserLoginFlow := fun _ => ExecResult.ok ⟨"flow1"⟩ (plainResponse 200 [123, 125])
    Getenv := fun name => if name = "BASE_URL" then "https://ui.example" else "" }

/-- An upstream that answers every flow fetch and update with a 422. -/
def rejecting : Upstream :=
  { offline with
    GetLoginFlow := fun _ _ => ExecResult.failed (some (plainResponse 422 [1])) "422"
    UpdateLoginFlow := fun _ _ _ => ExecResult.failed (some (plainResponse 422 [2])) "422" }

/-- A browser request with a session cookie, a login challenge, a consent
challenge, a `return_to` and `refresh=true`. -/
def browserRequest : Request :=
  ⟨⟨"https", "login",
      [("login_challenge", ["lc1"]), ("consent_challenge", ["cc1"]),
        ("return_to", ["https://elsewhere.example"]), ("refresh", ["true"])]⟩,
    "ui.example", [⟨"ory_kratos_session", "s1"⟩], []⟩

/-- The same request without any cookie. -/
def anonymousRequest : Request :=
  { browserRequest with Cookies := [] }

/-- A request without cookies that asks for a refreshed login: `?refresh=true`. -/
def refreshRequest : Request :=
  ⟨⟨"https", "login", [("refresh", ["true"])]⟩, "ui.example", [], []⟩

/-! # Properties

## Go maps -/

theorem GoMap.get_set {V : Type} (m : List (String × V)) (k : String) (v : V) (c : String) :
    GoMap.get (GoMap.set m k v) c = if k = c then some v else GoMap.get m c := by
  induction m with
  | nil => simp [GoMap.set, GoMap.get]
  | cons p m ih =>
    obtain ⟨k', v'⟩ := p
    by_cases hk : k' = k
    · subst hk
      by_cases hc : k' = c <;> simp [GoMap.set, GoMap.get, hc]
    · by_cases hc : k' = c
      · subst hc
        have hne : ¬ k = k' := fun h => hk h.symm
        simp [GoMap.set, GoMap.get, hk, hne]
      · simp [GoMap.set, GoMap.get, hk, hc, ih]

theorem GoMap.keys_set {V : Type} (m : List (String × V)) (k : String) (v : V) (c : String) :
    c ∈ GoMap.keys (GoMap.set m k v) ↔ c = k ∨ c ∈ GoMap.keys m := by
  induction m with
  | nil => simp [GoMap.set, GoMap.keys]
  | cons p m ih =>
    obtain ⟨k', v'⟩ := p
    by_cases hk : k' = k
    · subst hk
      simp [GoMap.set, GoMap.keys]
    · have ih' : (∃ x, (c, x) ∈ GoMap.set m k v) ↔ c = k ∨ ∃ x, (c, x) ∈ m := by
        simpa [GoMap.keys] using ih
      simp only [GoMap.set, GoMap.keys, hk, if_false, List.map_cons, List.mem_cons, List.mem_map,
        Prod.exists, exists_and_right, exists_eq_right]
      rw [ih']
      tauto

theorem GoMap.nodup_keys_set {V : Type} (m : List (String × V)) (k : String) (v : V)
    (h : (GoMap.keys m).Nodup) : (GoMap.keys (GoMap.set m k v)).Nodup := by
  induction m with
  | nil => simp [GoMap.set, GoMap.keys]
  | cons p m ih =>
    obtain ⟨k', v'⟩ := p
    have h' : k' ∉ GoMap.keys m ∧ (GoMap.keys m).Nodup := by
      simpa [GoMap.keys] using h
    by_cases hk : k' = k
    · subst hk
      simpa [GoMap.set, GoMap.keys] using h
    · have hnot : k' ∉ GoMap.keys (GoMap.set m k v) := by
        rw [GoMap.keys_set]
        rintro (h1 | h1)
        · exact hk h1
        · exact h'.1 h1
      have := ih h'.2
      simp only [GoMap.set, hk, if_false]
      exact List.nodup_cons.2 ⟨hnot, this⟩

theorem GoMap.mem_iff_get {V : Type} (m : List (String × V)) (h : (GoMap.keys m).Nodup)
    (c : String) (v : V) : (c, v) ∈ m ↔ GoMap.get m c = some v := by
  induction m with
  | nil => simp [GoMap.get]
  | cons p m ih =>
    obtain ⟨k', v'⟩ := p
    have h' : k' ∉ GoMap.keys m ∧ (GoMap.keys m).Nodup := by
      simpa [GoMap.keys] using h
    by_cases hc : k' = c
    · subst hc
      have hno : ∀ x, (k', x) ∉ m := by
        intro x hx
        exact h'.1 (List.mem_map.2 ⟨(k', x), hx, rfl⟩)
      simp [GoMap.get, hno, eq_comm]
    · have hc' : ¬ c = k' := fun e => hc e.symm
      simp [GoMap.get, hc, hc', ih h'.2]

theorem GoMap.nodup_of_nodup_keys {V : Type} (m : List (String × V))
    (h : (GoMap.keys m).Nodup) : m.Nodup :=
  List.Nodup.of_map Prod.fst h

/-- Two maps with the same bindings hold the same entries, up to their order. -/
theorem GoMap.perm_of_get_eq {V : Type} (m₁ m₂ : List (String × V))
    (h₁ : (GoMap.keys m₁).Nodup) (h₂ : (GoMap.keys m₂).Nodup)
    (h : ∀ c, GoMap.get m₁ c = GoMap.get m₂ c) : m₁.Perm m₂ := by
  refine (List.perm_ext_iff_of_nodup (GoMap.nodup_of_nodup_keys m₁ h₁)
    (GoMap.nodup_of_nodup_keys m₂ h₂)).2 ?_
  rintro ⟨c, v⟩
  rw [GoMap.mem_iff_get m₁ h₁, GoMap.mem_iff_get m₂ h₂, h c]

/-! ## The claims derivation -/

/-- The scopes loop of `getUserClaims`, from any accumulator. -/
theorem getUserClaims_eq_foldl (i : Identity) (cr : OAuth2ConsentRequest) :
    getUserClaims i cr =
      cr.RequestedScope.foldl
        (fun ret s =>
          match GoMap.get oidcScopeMapping s with
          | none => ret
          | some cs => copyClaims (assertTraits i.Traits).1 cs ret)
        [] := rfl

theorem get_copyClaims (traits : List (String × Any)) (cs : List String)
    (ret : List (String × Any)) (c : String) :
    GoMap.get (copyClaims traits cs ret) c =
      if c ∈ cs ∧ (GoMap.get traits c).isSome then GoMap.get traits c else GoMap.get ret c := by
  unfold copyClaims
  induction cs generalizing ret with
  | nil => simp
  | cons x cs ih =>
    rw [List.foldl_cons, ih]
    by_cases hin : c ∈ cs ∧ (GoMap.get traits c).isSome
    · have hin' : c ∈ x :: cs ∧ (GoMap.get traits c).isSome := ⟨List.mem_cons_of_mem _ hin.1, hin.2⟩
      rw [if_pos hin, if_pos hin']
    · rw [if_neg hin]
      by_cases hx : x = c
      · subst hx
        cases hg : GoMap.get traits x with
        | none => simp [hg]
        | some val => simp [hg, GoMap.get_set]
      · have hx' : ¬ c = x := fun e => hx e.symm
        have hiff : (c ∈ x :: cs ∧ (GoMap.get traits c).isSome) ↔
            (c ∈ cs ∧ (GoMap.get traits c).isSome) := by
          simp [hx']
        rw [if_neg (fun h => hin (hiff.1 h))]
        cases hg : GoMap.get traits x with
        | none => rfl
        | some val => simp [GoMap.get_set, hx]

theorem nodup_keys_copyClaims (traits : List (String × Any)) (cs : List String)
    (ret : List (String × Any)) (h : (GoMap.keys ret).Nodup) :
    (GoMap.keys (copyClaims traits cs ret)).Nodup := by
  unfold copyClaims
  induction cs generalizing ret with
  | nil => simpa using h
  | cons x cs ih =>
    rw [List.foldl_cons]
    apply ih
    cases hg : GoMap.get traits x with
    | none => exact h
    | some val => exact GoMap.nodup_keys_set ret x val h

theorem get_scopes_foldl (traits : List (String × Any)) (scopes : List String)
    (ret : List (String × Any)) (c : String) (v : Any) :
    GoMap.get
        (scopes.foldl
          (fun ret s =>
            match GoMap.get oidcScopeMapping s with
            | none => ret
            | some cs => copyClaims traits cs ret)
          ret) c = some v ↔
      (Released scopes c ∧ GoMap.get traits c = some v) ∨
        ((¬ Released scopes c ∨ GoMap.get traits c = none) ∧ GoMap.get ret c = some v) := by
  induction scopes generalizing ret with
  | nil => simp [Released]
  | cons s scopes ih =>
    rw [List.foldl_cons, ih]
    have hrel : Released (s :: scopes) c ↔
        (∃ cs, GoMap.get oidcScopeMapping s = some cs ∧ c ∈ cs) ∨ Released scopes c := by
      simp [Released]
    rw [hrel]
    cases hs : GoMap.get oidcScopeMapping s with
    | none => simp
    | some cs =>
      simp only [get_copyClaims, Option.some.injEq, exists_eq_left']
      by_cases hc : c ∈ cs
      · cases ht : GoMap.get traits c with
        | none => simp [hc]
        | some t => simp [hc]; tauto
      · simp [hc]

theorem nodup_keys_scopes_foldl (traits : List (String × Any)) (scopes : List String)
    (ret : List (String × Any)) (h : (GoMap.keys ret).Nodup) :
    (GoMap.keys
      (scopes.foldl
        (fun ret s =>
          match GoMap.get oidcScopeMapping s with
          | none => ret
          | some cs => copyClaims traits cs ret)
        ret)).Nodup := by
  induction scopes generalizing ret with
  | nil => simpa using h
  | cons s scopes ih =>
    rw [List.foldl_cons]
    apply ih
    cases hs : GoMap.get oidcScopeMapping s with
    | none => exact h
    | some cs => exact nodup_keys_copyClaims traits cs ret h

theorem get_getUserClaims (i : Identity) (cr : OAuth2ConsentRequest) (c : String) (v : Any) :
    GoMap.get (getUserClaims i cr) c = some v ↔
      Released cr.RequestedScope c ∧ GoMap.get (assertTraits i.Traits).1 c = some v := by
  rw [getUserClaims_eq_foldl, get_scopes_foldl]
  simp [GoMap.get]

theorem nodup_keys_getUserClaims (i : Identity) (cr : OAuth2ConsentRequest) :
    (GoMap.keys (getUserClaims i cr)).Nodup := by
  rw [getUserClaims_eq_foldl]
  exact nodup_keys_scopes_foldl _ _ _ (by simp [GoMap.keys])

theorem copyClaims_nil (cs : List String) (ret : List (String × Any)) :
    copyClaims [] cs ret = ret := by
  unfold copyClaims
  induction cs generalizing ret with
  | nil => rfl
  | cons x cs ih => rw [List.foldl_cons]; simp [GoMap.get, ih]

theorem scopes_foldl_nil (scopes : List String) (ret : List (String × Any)) :
    scopes.foldl
        (fun ret s =>
          match GoMap.get oidcScopeMapping s with
          | none => ret
          | some cs => copyClaims [] cs ret)
        ret = ret := by
  induction scopes generalizing ret with
  | nil => rfl
  | cons s scopes ih =>
    rw [List.foldl_cons, ih]
    cases hs : GoMap.get oidcScopeMapping s with
    | none => rfl
    | some cs => exact copyClaims_nil cs ret

/-- C1: the claim set returned by `getUserClaims` binds `c` to `v` exactly
when the traits are a string-keyed mapping that binds `c` to `v` and `c` is
listed in `oidcScopeMapping` under one of the requested scopes; traits that
are not a string-keyed mapping give the empty claim set. -/
theorem getUserClaims_contains_iff (i : Identity) (cr : OAuth2ConsentRequest) :
    (∀ c v, GoMap.get (getUserClaims i cr) c = some v ↔
      (∃ traits, i.Traits = Any.map traits ∧ GoMap.get traits c = some v) ∧
        ∃ s ∈ cr.RequestedScope, ∃ cs, GoMap.get oidcScopeMapping s = some cs ∧ c ∈ cs) ∧
    ((∀ traits, i.Traits ≠ Any.map traits) → getUserClaims i cr = []) := by
  constructor
  · intro c v
    rw [get_getUserClaims]
    unfold Released
    cases ht : i.Traits <;> simp [assertTraits, GoMap.get, and_comm]
  · intro h
    rw [getUserClaims_eq_foldl]
    cases ht : i.Traits with
    | map m => exact absurd ht (h m)
    | _ => exact scopes_foldl_nil _ _

theorem getUserClaims_contains_iff_witness :
    getUserClaims ⟨"u1", Any.string "not a mapping"⟩ ⟨"c1", ["unknown_scope", "email"], []⟩ = [] ∧
    (GoMap.get
        (getUserClaims ⟨"u1", Any.map [("email", Any.string "a@b.com"), ("other", Any.string "x")]⟩
          ⟨"c1", ["email"], []⟩) "other" = some (Any.string "x") ↔
      (∃ traits, Any.map [("email", Any.string "a@b.com"), ("other", Any.string "x")] = Any.map traits ∧
          GoMap.get traits "other" = some (Any.string "x")) ∧
        ∃ s ∈ ["email"], ∃ cs, GoMap.get oidcScopeMapping s = some cs ∧ "other" ∈ cs) :=
  ⟨(getUserClaims_contains_iff ⟨"u1", Any.string "not a mapping"⟩
      ⟨"c1", ["unknown_scope", "email"], []⟩).2 (by intro traits h; cases h),
    (getUserClaims_contains_iff
      ⟨"u1", Any.map [("email", Any.string "a@b.com"), ("other", Any.string "x")]⟩
      ⟨"c1", ["email"], []⟩).1 "other" (Any.string "x")⟩

/-- C10: two scope lists that contain the same scope names, in any order and
with any repetitions, give the same claim set: every claim name is bound to
the same value in both, and the two hold the same entries. -/
theorem getUserClaims_scope_set (i : Identity) (cr₁ cr₂ : OAuth2ConsentRequest)
    (h : ∀ s, s ∈ cr₁.RequestedScope ↔ s ∈ cr₂.RequestedScope) :
    (∀ c, GoMap.get (getUserClaims i cr₁) c = GoMap.get (getUserClaims i cr₂) c) ∧
      (getUserClaims i cr₁).Perm (getUserClaims i cr₂) := by
  have hget : ∀ c, GoMap.get (getUserClaims i cr₁) c = GoMap.get (getUserClaims i cr₂) c := by
    intro c
    apply Option.ext
    intro v
    show GoMap.get (getUserClaims i cr₁) c = some v ↔ GoMap.get (getUserClaims i cr₂) c = some v
    rw [get_getUserClaims, get_getUserClaims]
    have hrel : Released cr₁.RequestedScope c ↔ Released cr₂.RequestedScope c := by
      unfold Released
      constructor
      · rintro ⟨s, hs, rest⟩
        exact ⟨s, (h s).1 hs, rest⟩
      · rintro ⟨s, hs, rest⟩
        exact ⟨s, (h s).2 hs, rest⟩
    rw [hrel]
  exact ⟨hget, GoMap.perm_of_get_eq _ _ (nodup_keys_getUserClaims i cr₁)
    (nodup_keys_getUserClaims i cr₂) hget⟩

theorem getUserClaims_scope_set_witness :
    (∀ s, s ∈ ["openid", "email", "openid"] ↔ s ∈ ["email", "openid"]) ∧
    (∀ c,
      GoMap.get
          (getUserClaims ⟨"u1", Any.map [("sub", Any.string "u1"), ("email", Any.string "e@x.com")]⟩
            ⟨"c1", ["openid", "email", "openid"], []⟩) c =
        GoMap.get
          (getUserClaims ⟨"u1", Any.map [("sub", Any.string "u1"), ("email", Any.string "e@x.com")]⟩
            ⟨"c2", ["email", "openid"], []⟩) c) ∧
    (getUserClaims ⟨"u1", Any.map [("sub", Any.string "u1"), ("email", Any.string "e@x.com")]⟩
        ⟨"c1", ["openid", "email", "openid"], []⟩).Perm
      (getUserClaims ⟨"u1", Any.map [("sub", Any.string "u1"), ("email", Any.string "e@x.com")]⟩
        ⟨"c2", ["email", "openid"], []⟩) :=
  ⟨by intro s; simp; tauto,
    getUserClaims_scope_set
      ⟨"u1", Any.map [("sub", Any.string "u1"), ("email", Any.string "e@x.com")]⟩
      ⟨"c1", ["openid", "email", "openid"], []⟩ ⟨"c2", ["email", "openid"], []⟩
      (by intro s; simp; tauto)⟩

/-! ## The response passthrough -/

theorem setHeaders_wrote_body (hdr : Values) (w : ResponseWriter) :
    (hdr.foldl (fun w kvs => kvs.2.foldl (fun w v => w.SetHeader kvs.1 v) w) w).wrote = w.wrote ∧
    (hdr.foldl (fun w kvs => kvs.2.foldl (fun w v => w.SetHeader kvs.1 v) w) w).body = w.body := by
  have inner : ∀ (k : String) (vs : List String) (w : ResponseWriter),
      (vs.foldl (fun w v => w.SetHeader k v) w).wrote = w.wrote ∧
      (vs.foldl (fun w v => w.SetHeader k v) w).body = w.body := by
    intro k vs
    induction vs with
    | nil => intro w; exact ⟨rfl, rfl⟩
    | cons v vs ih =>
      intro w
      rw [List.foldl_cons]
      exact ⟨(ih _).1.trans rfl, (ih _).2.trans rfl⟩
  induction hdr generalizing w with
  | nil => exact ⟨rfl, rfl⟩
  | cons kvs hdr ih =>
    rw [List.foldl_cons]
    exact ⟨(ih _).1.trans (inner _ _ _).1, (ih _).2.trans (inner _ _ _).2⟩

/-- On a writer nothing was sent from, `writeResponse` sends the status code
of a response whose code `WriteHeader` accepts and whose body can be read,
and then its body. -/
theorem writeResponse_fresh (w : ResponseWriter) (r : Response) (hw : w.wrote = none)
    (hb : r.Body.err = none) (hlo : 100 ≤ r.StatusCode) (hhi : r.StatusCode ≤ 999) :
    (writeResponse w r).1.wrote.map Prod.fst = some r.StatusCode ∧
      (writeResponse w r).1.body = w.body ++ r.Body.data ∧
      (writeResponse w r).2 = Exit.returned := by
  have h := setHeaders_wrote_body r.Header w
  have hrange : ¬ (r.StatusCode < 100 ∨ r.StatusCode > 999) := by omega
  simp only [writeResponse, hb, ResponseWriter.Write, ResponseWriter.WriteHeader, h.1, hw, h.2,
    hrange, if_false]
  simp [h.2]

theorem forwardUnless422_passthrough (calls : List Call) (w : ResponseWriter)
    (res : ExecResult LoginFlow) : Passthrough422 res w (forwardUnless422 calls w res) := by
  unfold Passthrough422
  cases res with
  | ok value resp =>
    simp only [forwardUnless422, forward, ExecResult.err, ExecResult.resp, ExecResult.status]
    refine ⟨by simp, ?_, by simp, ?_⟩
    · intro resp' h
      cases Option.some.inj h
      exact ⟨rfl, rfl, rfl⟩
    · intro resp' h h422 hw hb
      cases Option.some.inj h
      have := writeResponse_fresh w resp hw hb (by omega) (by omega)
      rw [h422] at this
      exact ⟨this.1, this.2.1⟩
  | empty resp =>
    simp only [forwardUnless422, forward, ExecResult.err, ExecResult.resp, ExecResult.status]
    refine ⟨by simp, ?_, by simp, ?_⟩
    · intro resp' h
      cases Option.some.inj h
      exact ⟨rfl, rfl, rfl⟩
    · intro resp' h h422 hw hb
      cases Option.some.inj h
      have := writeResponse_fresh w resp hw hb (by omega) (by omega)
      rw [h422] at this
      exact ⟨this.1, this.2.1⟩
  | failed resp err =>
    cases resp with
    | none =>
      simp [forwardUnless422, ExecResult.err, ExecResult.resp, ExecResult.status]
    | some resp =>
      by_cases h422 : resp.StatusCode = 422
      · simp only [forwardUnless422, forward, ExecResult.err, ExecResult.resp, ExecResult.status,
          h422, ne_eq, not_true_eq_false, if_false]
        refine ⟨by simp [h422], ?_, by simp, ?_⟩
        · intro resp' h
          cases Option.some.inj h
          exact ⟨rfl, rfl, rfl⟩
        · intro resp' h _ hw hb
          cases Option.some.inj h
          have := writeResponse_fresh w resp hw hb (by omega) (by omega)
          rw [h422] at this
          exact ⟨this.1, this.2.1⟩
      · simp [forwardUnless422, ExecResult.err, ExecResult.resp, ExecResult.status, h422]

/-- C7: `handleLoginFlow` and `handleUpdateFlow` hand the upstream response to
`writeResponse` exactly when the upstream call returned no error or its status
code is 422, the writer is then the one `writeResponse` leaves, and after any
other failure the writer is untouched; a 422 with a readable body reaches a
fresh writer with status 422 and its body. -/
theorem flow_passthrough_iff (up : Upstream) (r : Request) (w : ResponseWriter) :
    Passthrough422
        (up.GetLoginFlow (r.URL.Query.Get "id") (cookiesToString r.Cookies)) w
        (handleLoginFlow up r w) ∧
      Passthrough422
        (up.UpdateLoginFlow (r.URL.Query.Get "flow") (up.Decode r.Body) (cookiesToString r.Cookies)) w
        (handleUpdateFlow up r w) :=
  ⟨forwardUnless422_passthrough _ _ _, forwardUnless422_passthrough _ _ _⟩

/-! ## The login handlers -/

theorem createFlow_calls (up : Upstream) (r : Request) (w : ResponseWriter) (calls : List Call) :
    (createFlow up r w calls).calls = calls ++ [Call.CreateBrowserLoginFlow (createFlowRequest up r)] := by
  unfold createFlow
  dsimp only
  split <;> rfl

theorem createFlow_forward (up : Upstream) (r : Request) (w : ResponseWriter) (calls : List Call)
    (flow : LoginFlow) (resp : Response)
    (h : up.CreateBrowserLoginFlow (createFlowRequest up r) = ExecResult.ok flow resp) :
    (createFlow up r w calls).forwarded = some resp ∧
      (createFlow up r w calls).w = (writeResponse w resp).1 ∧
      (createFlow up r w calls).exit = (writeResponse w resp).2 := by
  unfold createFlow
  simp only [h]
  exact ⟨rfl, rfl, rfl⟩

theorem createFlow_forward_empty (up : Upstream) (r : Request) (w : ResponseWriter)
    (calls : List Call) (resp : Response)
    (h : up.CreateBrowserLoginFlow (createFlowRequest up r) = ExecResult.empty resp) :
    (createFlow up r w calls).forwarded = some resp ∧
      (createFlow up r w calls).w = (writeResponse w resp).1 ∧
      (createFlow up r w calls).exit = (writeResponse w resp).2 := by
  unfold createFlow
  simp only [h]
  exact ⟨rfl, rfl, rfl⟩

theorem handleCreateFlow_no_cookie (up : Upstream) (r : Request) (w : ResponseWriter)
    (hcookie : r.Cookie "ory_kratos_session" = none) :
    handleCreateFlow up r w = createFlow up r w [] := by
  simp only [handleCreateFlow, hcookie]

theorem handleCreateFlow_nil_resp (up : Upstream) (r : Request) (w : ResponseWriter) (c : Cookie)
    (err : String) (hcookie : r.Cookie "ory_kratos_session" = some c)
    (hs : up.ToSession (cookiesToString r.Cookies) = ExecResult.failed none err) :
    handleCreateFlow up r w =
      ⟨[Call.ToSession (cookiesToString r.Cookies)], none, w, Exit.panicked⟩ := by
  simp only [handleCreateFlow, hcookie, hs, ExecResult.resp]

theorem handleCreateFlow_failed (up : Upstream) (r : Request) (w : ResponseWriter) (c : Cookie)
    (resp : Response) (err : String) (hcookie : r.Cookie "ory_kratos_session" = some c)
    (hs : up.ToSession (cookiesToString r.Cookies) = ExecResult.failed (some resp) err) :
    handleCreateFlow up r w = createFlow up r w [Call.ToSession (cookiesToString r.Cookies)] := by
  simp only [handleCreateFlow, hcookie, hs, ExecResult.resp]
  split <;> rfl

theorem handleCreateFlow_ok_401 (up : Upstream) (r : Request) (w : ResponseWriter) (c : Cookie)
    (session : Session) (resp : Response) (hcookie : r.Cookie "ory_kratos_session" = some c)
    (hs : up.ToSession (cookiesToString r.Cookies) = ExecResult.ok session resp)
    (h401 : resp.StatusCode = 401) :
    handleCreateFlow up r w = createFlow up r w [Call.ToSession (cookiesToString r.Cookies)] := by
  simp only [handleCreateFlow, hcookie, hs, ExecResult.resp, h401, ne_eq, not_true_eq_false,
    if_false]

theorem handleCreateFlow_empty_401 (up : Upstream) (r : Request) (w : ResponseWriter)
    (c : Cookie) (resp : Response) (hcookie : r.Cookie "ory_kratos_session" = some c)
    (hs : up.ToSession (cookiesToString r.Cookies) = ExecResult.empty resp)
    (h401 : resp.StatusCode = 401) :
    handleCreateFlow up r w = createFlow up r w [Call.ToSession (cookiesToString r.Cookies)] := by
  simp only [handleCreateFlow, hcookie, hs, ExecResult.resp, h401, ne_eq, not_true_eq_false,
    if_false]

theorem handleCreateFlow_empty (up : Upstream) (r : Request) (w : ResponseWriter)
    (c : Cookie) (resp : Response) (hcookie : r.Cookie "ory_kratos_session" = some c)
    (hs : up.ToSession (cookiesToString r.Cookies) = ExecResult.empty resp)
    (h401 : resp.StatusCode ≠ 401) :
    handleCreateFlow up r w =
      ⟨[Call.ToSession (cookiesToString r.Cookies)], none, w, Exit.panicked⟩ := by
  simp only [handleCreateFlow, hcookie, hs, ExecResult.resp, ne_eq, h401, not_false_eq_true,
    if_true]

theorem handleCreateFlow_ok (up : Upstream) (r : Request) (w : ResponseWriter) (c : Cookie)
    (session : Session) (resp : Response) (hcookie : r.Cookie "ory_kratos_session" = some c)
    (hs : up.ToSession (cookiesToString r.Cookies) = ExecResult.ok session resp)
    (h401 : resp.StatusCode ≠ 401) :
    handleCreateFlow up r w =
      match up.AcceptOAuth2LoginRequest (r.URL.Query.Get "login_challenge")
          ⟨session.Identity.Id⟩ with
      | ExecResult.failed _ _ =>
        ⟨[Call.ToSession (cookiesToString r.Cookies),
          Call.AcceptOAuth2LoginRequest (r.URL.Query.Get "login_challenge") ⟨session.Identity.Id⟩],
          none, w, Exit.returned⟩
      | ExecResult.ok _ resp =>
        forward
          [Call.ToSession (cookiesToString r.Cookies),
            Call.AcceptOAuth2LoginRequest (r.URL.Query.Get "login_challenge")
              ⟨session.Identity.Id⟩] w resp
      | ExecResult.empty resp =>
        forward
          [Call.ToSession (cookiesToString r.Cookies),
            Call.AcceptOAuth2LoginRequest (r.URL.Query.Get "login_challenge")
              ⟨session.Identity.Id⟩] w resp := by
  simp only [handleCreateFlow, hcookie, hs, ExecResult.resp, ne_eq, h401, not_false_eq_true,
    if_true, NewAcceptOAuth2LoginRequest]
  rfl

/-- The paths of `handleCreateFlow`: it ends in `createFlow`, or it never calls
create-browser-login-flow. -/
theorem handleCreateFlow_paths (up : Upstream) (r : Request) (w : ResponseWriter) :
    (∃ calls, handleCreateFlow up r w = createFlow up r w calls ∧
        (calls = [] ∨ calls = [Call.ToSession (cookiesToString r.Cookies)])) ∨
      (∀ req, Call.CreateBrowserLoginFlow req ∉ (handleCreateFlow up r w).calls) := by
  cases hcookie : r.Cookie "ory_kratos_session" with
  | none => exact Or.inl ⟨[], handleCreateFlow_no_cookie up r w hcookie, Or.inl rfl⟩
  | some c =>
    cases hs : up.ToSession (cookiesToString r.Cookies) with
    | failed resp err =>
      cases resp with
      | none =>
        right
        intro req
        rw [handleCreateFlow_nil_resp up r w c err hcookie hs]
        simp
      | some resp =>
        exact Or.inl ⟨_, handleCreateFlow_failed up r w c resp err hcookie hs, Or.inr rfl⟩
    | empty resp =>
      by_cases h401 : resp.StatusCode = 401
      · exact Or.inl ⟨_, handleCreateFlow_empty_401 up r w c resp hcookie hs h401, Or.inr rfl⟩
      · right
        intro req
        rw [handleCreateFlow_empty up r w c resp hcookie hs h401]
        simp
    | ok session resp =>
      by_cases h401 : resp.StatusCode = 401
      · exact Or.inl ⟨_, handleCreateFlow_ok_401 up r w c session resp hcookie hs h401, Or.inr rfl⟩
      · right
        intro req
        rw [handleCreateFlow_ok up r w c session resp hcookie hs h401]
        split <;> simp [forward]

/-- With a session cookie and a session check that succeeds, the calls of
`handleCreateFlow` are the session check and then accept-login with the
identity's id as subject and the `login_challenge` query value as challenge;
create-browser-login-flow is never called; and when accept-login returns no
error its response is handed to `writeResponse`. -/
theorem handleCreateFlow_authenticated (up : Upstream) (r : Request) (w : ResponseWriter)
    (c : Cookie) (session : Session) (session_resp : Response)
    (hcookie : r.Cookie "ory_kratos_session" = some c)
    (hs : up.ToSession (cookiesToString r.Cookies) = ExecResult.ok session session_resp)
    (h401 : session_resp.StatusCode ≠ 401) :
    (handleCreateFlow up r w).calls =
        [Call.ToSession (cookiesToString r.Cookies),
          Call.AcceptOAuth2LoginRequest (r.URL.Query.Get "login_challenge")
            ⟨session.Identity.Id⟩] ∧
      (∀ req, Call.CreateBrowserLoginFlow req ∉ (handleCreateFlow up r w).calls) ∧
      (∀ resp,
        (up.AcceptOAuth2LoginRequest (r.URL.Query.Get "login_challenge")
            ⟨session.Identity.Id⟩).err = none →
        (up.AcceptOAuth2LoginRequest (r.URL.Query.Get "login_challenge")
            ⟨session.Identity.Id⟩).resp = some resp →
          (handleCreateFlow up r w).forwarded = some resp ∧
            (handleCreateFlow up r w).w = (writeResponse w resp).1 ∧
            (handleCreateFlow up r w).exit = (writeResponse w resp).2) := by
  rw [handleCreateFlow_ok up r w c session session_resp hcookie hs h401]
  refine ⟨?_, ?_, ?_⟩
  · split <;> rfl
  · intro req
    split <;> simp [forward]
  · intro resp he hr
    cases hacc : up.AcceptOAuth2LoginRequest (r.URL.Query.Get "login_challenge")
        ⟨session.Identity.Id⟩ with
    | failed resp' err => rw [hacc] at he; cases he
    | ok redirect resp' =>
      rw [hacc] at hr
      cases Option.some.inj hr
      exact ⟨rfl, rfl, rfl⟩
    | empty resp' =>
      rw [hacc] at hr
      cases Option.some.inj hr
      exact ⟨rfl, rfl, rfl⟩

theorem handleCreateFlow_authenticated_witness :
    browserRequest.Cookie "ory_kratos_session" = some ⟨"ory_kratos_session", "s1"⟩ ∧
    (plainResponse 200 []).StatusCode ≠ 401 ∧
    (handleCreateFlow signedIn browserRequest freshWriter).calls =
      [Call.ToSession "ory_kratos_session=s1", Call.AcceptOAuth2LoginRequest "lc1" ⟨"u1"⟩] ∧
    (handleCreateFlow signedIn browserRequest freshWriter).w =
      ⟨[], some (200, []), [123, 125]⟩ :=
  ⟨rfl, by decide,
    (handleCreateFlow_authenticated signedIn browserRequest freshWriter
      ⟨"ory_kratos_session", "s1"⟩
      ⟨⟨"u1", Any.map [("sub", Any.string "u1"), ("email", Any.string "e@x.com")]⟩⟩
      (plainResponse 200 []) rfl rfl (by decide)).1,
    ((handleCreateFlow_authenticated signedIn browserRequest freshWriter
      ⟨"ory_kratos_session", "s1"⟩
      ⟨⟨"u1", Any.map [("sub", Any.string "u1"), ("email", Any.string "e@x.com")]⟩⟩
      (plainResponse 200 []) rfl rfl (by decide)).2.2
        (plainResponse 200 [123, 125]) rfl rfl).2.1⟩

/-- C3: on a request with the session cookie, where the session check
succeeds for the identity `u1` and accept-login answers 200 with a body and
with `Set-Cookie` carrying the two values `a=1` and `b=2`, `handleCreateFlow`
calls accept-login with subject `u1` and challenge `lc1` and nothing after
it, and hands that response to `writeResponse`; the status code and the body
reach the outbound response, and of the two `Set-Cookie` values only `b=2`
does. -/
theorem handleCreateFlow_authenticated_two_cookies :
    browserRequest.Cookie "ory_kratos_session" = some ⟨"ory_kratos_session", "s1"⟩ ∧
    signedInTwoCookies.ToSession (cookiesToString browserRequest.Cookies) =
      ExecResult.ok
        ⟨⟨"u1", Any.map [("sub", Any.string "u1"), ("email", Any.string "e@x.com")]⟩⟩
        (plainResponse 200 []) ∧
    signedInTwoCookies.AcceptOAuth2LoginRequest "lc1" ⟨"u1"⟩ =
      ExecResult.ok ⟨"https://hydra.example/next"⟩
        ⟨200, [("Set-Cookie", ["a=1", "b=2"])], ⟨[123, 125], none⟩⟩ ∧
    (handleCreateFlow signedInTwoCookies browserRequest freshWriter).calls =
      [Call.ToSession "ory_kratos_session=s1", Call.AcceptOAuth2LoginRequest "lc1" ⟨"u1"⟩] ∧
    (handleCreateFlow signedInTwoCookies browserRequest freshWriter).forwarded =
      some ⟨200, [("Set-Cookie", ["a=1", "b=2"])], ⟨[123, 125], none⟩⟩ ∧
    (handleCreateFlow signedInTwoCookies browserRequest freshWriter).w =
      ⟨[("Set-Cookie", ["b=2"])], some (200, [("Set-Cookie", ["b=2"])]), [123, 125]⟩ ∧
    (handleCreateFlow signedInTwoCookies browserRequest freshWriter).exit = Exit.returned :=
  ⟨rfl, rfl, rfl, rfl, rfl, rfl, rfl⟩

/-- C4: when the session check answers 401, `handleCreateFlow` never calls
accept-login, calls create-browser-login-flow, and hands that call's response
to `writeResponse` when it succeeds, with or without a decoded flow. -/
theorem handleCreateFlow_unauthorized (up : Upstream) (r : Request) (w : ResponseWriter)
    (h : (up.ToSession (cookiesToString r.Cookies)).status = some 401) :
    (∀ challenge body,
        Call.AcceptOAuth2LoginRequest challenge body ∉ (handleCreateFlow up r w).calls) ∧
      Call.CreateBrowserLoginFlow (createFlowRequest up r) ∈ (handleCreateFlow up r w).calls ∧
      (∀ flow resp,
        up.CreateBrowserLoginFlow (createFlowRequest up r) = ExecResult.ok flow resp →
          (handleCreateFlow up r w).forwarded = some resp ∧
            (handleCreateFlow up r w).w = (writeResponse w resp).1 ∧
            (handleCreateFlow up r w).exit = (writeResponse w resp).2) ∧
      (∀ resp,
        up.CreateBrowserLoginFlow (createFlowRequest up r) = ExecResult.empty resp →
          (handleCreateFlow up r w).forwarded = some resp ∧
            (handleCreateFlow up r w).w = (writeResponse w resp).1 ∧
            (handleCreateFlow up r w).exit = (writeResponse w resp).2) := by
  have key : ∃ calls, handleCreateFlow up r w = createFlow up r w calls ∧
      (calls = [] ∨ calls = [Call.ToSession (cookiesToString r.Cookies)]) := by
    cases hcookie : r.Cookie "ory_kratos_session" with
    | none => exact ⟨[], handleCreateFlow_no_cookie up r w hcookie, Or.inl rfl⟩
    | some c =>
      refine ⟨[Call.ToSession (cookiesToString r.Cookies)], ?_, Or.inr rfl⟩
      cases hs : up.ToSession (cookiesToString r.Cookies) with
      | failed resp err =>
        cases resp with
        | none => simp [hs, ExecResult.status, ExecResult.resp] at h
        | some resp => exact handleCreateFlow_failed up r w c resp err hcookie hs
      | empty resp =>
        have h401 : resp.StatusCode = 401 := by
          simpa [hs, ExecResult.status, ExecResult.resp] using h
        exact handleCreateFlow_empty_401 up r w c resp hcookie hs h401
      | ok session resp =>
        have h401 : resp.StatusCode = 401 := by
          simpa [hs, ExecResult.status, ExecResult.resp] using h
        exact handleCreateFlow_ok_401 up r w c session resp hcookie hs h401
  obtain ⟨calls, heq, hcalls⟩ := key
  rw [heq]
  refine ⟨?_, ?_, ?_, ?_⟩
  · intro challenge body
    rw [createFlow_calls]
    rcases hcalls with hc | hc <;> simp [hc]
  · rw [createFlow_calls]
    simp
  · intro flow resp hok
    exact createFlow_forward up r w calls flow resp hok
  · intro resp hok
    exact createFlow_forward_empty up r w calls resp hok

theorem handleCreateFlow_unauthorized_witness :
    (signedOut.ToSession (cookiesToString browserRequest.Cookies)).status = some 401 ∧
    (∀ challenge body,
      Call.AcceptOAuth2LoginRequest challenge body ∉
        (handleCreateFlow signedOut browserRequest freshWriter).calls) ∧
    Call.CreateBrowserLoginFlow (createFlowRequest signedOut browserRequest) ∈
      (handleCreateFlow signedOut browserRequest freshWriter).calls ∧
    (handleCreateFlow signedOut browserRequest freshWriter).w =
      (writeResponse freshWriter (plainResponse 200 [123, 125])).1 :=
  ⟨rfl,
    (handleCreateFlow_unauthorized signedOut browserRequest freshWriter rfl).1,
    (handleCreateFlow_unauthorized signedOut browserRequest freshWriter rfl).2.1,
    ((handleCreateFlow_unauthorized signedOut browserRequest freshWriter rfl).2.2.1
      ⟨"flow1"⟩ (plainResponse 200 [123, 125]) rfl).2.1⟩

/-- C9: every create-browser-login-flow call of `handleCreateFlow` carries as
return-to URL `getBaseURL(r)`, then `/login?login_challenge=`, then the
`login_challenge` query value, whatever `return_to` holds; `getBaseURL` is the
`BASE_URL` environment value when that is not empty; and a request without a
session cookie does reach the call. -/
theorem handleCreateFlow_returnTo (up : Upstream) (r : Request) (w : ResponseWriter) :
    (∀ req, Call.CreateBrowserLoginFlow req ∈ (handleCreateFlow up r w).calls →
      req.returnTo =
        some (getBaseURL up r ++ "/login?login_challenge=" ++ r.URL.Query.Get "login_challenge")) ∧
    (up.Getenv "BASE_URL" ≠ "" → getBaseURL up r = up.Getenv "BASE_URL") ∧
    (r.Cookie "ory_kratos_session" = none →
      Call.CreateBrowserLoginFlow (createFlowRequest up r) ∈ (handleCreateFlow up r w).calls) := by
  refine ⟨?_, ?_, ?_⟩
  · intro req hreq
    rcases handleCreateFlow_paths up r w with ⟨calls, heq, hcalls⟩ | hno
    · rw [heq, createFlow_calls] at hreq
      have hreq' : req = createFlowRequest up r := by
        rcases hcalls with hc | hc <;> simpa [hc] using hreq
      rw [hreq']
      rfl
    · exact absurd hreq (hno req)
  · intro h
    simp [getBaseURL, h]
  · intro h
    rw [handleCreateFlow_no_cookie up r w h, createFlow_calls]
    simp

theorem handleCreateFlow_returnTo_witness :
    Call.CreateBrowserLoginFlow
        ⟨some false, some "", some "https://ui.example/login?login_challenge=lc1",
          some "ory_kratos_session=s1", some "lc1"⟩ ∈
      (handleCreateFlow signedOut browserRequest freshWriter).calls ∧
    signedOut.Getenv "BASE_URL" ≠ "" ∧
    (some "https://ui.example/login?login_challenge=lc1" =
      some (getBaseURL signedOut browserRequest ++ "/login?login_challenge=" ++
        browserRequest.URL.Query.Get "login_challenge")) ∧
    getBaseURL signedOut browserRequest = signedOut.Getenv "BASE_URL" :=
  ⟨List.mem_cons_of_mem _ (List.mem_cons_self _ _), by decide,
    (handleCreateFlow_returnTo signedOut browserRequest freshWriter).1
      ⟨some false, some "", some "https://ui.example/login?login_challenge=lc1",
        some "ory_kratos_session=s1", some "lc1"⟩
      (List.mem_cons_of_mem _ (List.mem_cons_self _ _)),
    (handleCreateFlow_returnTo signedOut browserRequest freshWriter).2.1 (by decide)⟩

/-- The two statements that compute `refresh` leave it `false` on every query. -/
theorem parseRefresh_eq_false (q : Values) : parseRefresh q = false := by
  unfold parseRefresh
  by_cases h : (ParseBool (q.Get "refresh")).2 = none
  · simp [h]
  · have hv : (ParseBool (q.Get "refresh")).1 = false := by
      unfold ParseBool at h ⊢
      split_ifs at h ⊢ <;> simp_all
    simp [h, hv]

/-- C8: on the request `?refresh=true` without a session cookie, where
`strconv.ParseBool` gives `true` and no error, the one upstream call of
`handleCreateFlow` is create-browser-login-flow with `refresh=false`. -/
theorem handleCreateFlow_refresh_true (up : Upstream) (w : ResponseWriter) :
    ParseBool "true" = (true, none) ∧
    refreshRequest.URL.Query.Get "refresh" = "true" ∧
    ∃ req,
      (handleCreateFlow up refreshRequest w).calls = [Call.CreateBrowserLoginFlow req] ∧
      req.refresh = some false := by
  refine ⟨by decide, by decide, createFlowRequest up refreshRequest, ?_, ?_⟩
  · rw [handleCreateFlow_no_cookie up refreshRequest w rfl, createFlow_calls]
    rfl
  · rfl

/-- C6: on an upstream response whose `Set-Cookie` header carries the two
values `a=1` and `b=2`, `writeResponse` leaves a header block with the single
value `b=2`. -/
theorem writeResponse_multi_value_header :
    (writeResponse freshWriter
        ⟨200, [("Set-Cookie", ["a=1", "b=2"])], ⟨[111, 107], none⟩⟩).1 =
      ⟨[("Set-Cookie", ["b=2"])], some (200, [("Set-Cookie", ["b=2"])]), [111, 107]⟩ := by
  rfl

theorem flow_passthrough_iff_witness :
    (handleLoginFlow rejecting browserRequest freshWriter).w.wrote.map Prod.fst = some 422 ∧
    (handleLoginFlow rejecting browserRequest freshWriter).w.body = freshWriter.body ++ [1] ∧
    (handleUpdateFlow rejecting browserRequest freshWriter).w.wrote.map Prod.fst = some 422 ∧
    (handleUpdateFlow rejecting browserRequest freshWriter).w.body = freshWriter.body ++ [2] :=
  ⟨((flow_passthrough_iff rejecting browserRequest freshWriter).1.2.2.2
      (plainResponse 422 [1]) rfl rfl rfl rfl).1,
    ((flow_passthrough_iff rejecting browserRequest freshWriter).1.2.2.2
      (plainResponse 422 [1]) rfl rfl rfl rfl).2,
    ((flow_passthrough_iff rejecting browserRequest freshWriter).2.2.2.2
      (plainResponse 422 [2]) rfl rfl rfl rfl).1,
    ((flow_passthrough_iff rejecting browserRequest freshWriter).2.2.2.2
      (plainResponse 422 [2]) rfl rfl rfl rfl).2⟩

/-! ## The consent handler -/

/-- C5: when the session check of `handleConsent` returns an error or answers
401, the handler stops after that one call: it neither fetches the consent
request nor calls accept-consent, hands nothing to `writeResponse`, and leaves
the response writer as it found it. -/
theorem handleConsent_aborts (up : Upstream) (r : Request) (w : ResponseWriter)
    (hcontract : (up.ToSession (cookiesToString r.Cookies)).Contract)
    (h : (up.ToSession (cookiesToString r.Cookies)).err ≠ none ∨
      (up.ToSession (cookiesToString r.Cookies)).status = some 401) :
    (handleConsent up r w).calls = [Call.ToSession (cookiesToString r.Cookies)] ∧
      (handleConsent up r w).forwarded = none ∧
      (handleConsent up r w).w = w := by
  cases hs : up.ToSession (cookiesToString r.Cookies) with
  | failed resp err =>
    simp [handleConsent, hs]
  | ok session resp =>
    rw [hs] at h hcontract
    have hlt : resp.StatusCode < 300 := hcontract
    rcases h with h | h
    · exact absurd rfl h
    · have h401 : resp.StatusCode = 401 := by
        simpa [ExecResult.status, ExecResult.resp] using h
      omega
  | empty resp =>
    rw [hs] at h hcontract
    have hlt : resp.StatusCode < 300 := hcontract
    rcases h with h | h
    · exact absurd rfl h
    · have h401 : resp.StatusCode = 401 := by
        simpa [ExecResult.status, ExecResult.resp] using h
      omega

theorem handleConsent_aborts_witness :
    (signedOut.ToSession (cookiesToString browserRequest.Cookies)).Contract ∧
    (signedOut.ToSession (cookiesToString browserRequest.Cookies)).status = some 401 ∧
    (handleConsent signedOut browserRequest freshWriter).calls =
      [Call.ToSession "ory_kratos_session=s1"] ∧
    (handleConsent signedOut browserRequest freshWriter).forwarded = none ∧
    (handleConsent signedOut browserRequest freshWriter).w = freshWriter :=
  ⟨trivial, rfl, handleConsent_aborts signedOut browserRequest freshWriter trivial (Or.inr rfl)⟩

/-- C2: when the session check and the consent fetch both succeed, the third
upstream call of `handleConsent` is accept-consent for the same challenge,
with grant scope the requested scope list, grant audience the requested
audience list and `session.id_token` the claims `getUserClaims` derives from
the identity and the consent request; requested scope `openid`, `email` over
the traits `sub`, `email` gives the claims `sub`, `email`. -/
theorem handleConsent_accept_payload (up : Upstream) (r : Request) (w : ResponseWriter)
    (session : Session) (session_resp : Response) (consent : OAuth2ConsentRequest)
    (consent_resp : Response)
    (hs : up.ToSession (cookiesToString r.Cookies) = ExecResult.ok session session_resp)
    (hc : up.GetOAuth2ConsentRequest (r.URL.Query.Get "consent_challenge") =
      ExecResult.ok consent consent_resp) :
    (∃ body,
      (handleConsent up r w).calls =
        [Call.ToSession (cookiesToString r.Cookies),
          Call.GetOAuth2ConsentRequest (r.URL.Query.Get "consent_challenge"),
          Call.AcceptOAuth2ConsentRequest (r.URL.Query.Get "consent_challenge") body] ∧
      body.GrantScope = consent.RequestedScope ∧
      body.GrantAccessTokenAudience = consent.RequestedAccessTokenAudience ∧
      body.Session.map AcceptOAuth2ConsentRequestSession.IdToken =
        some (Any.map (getUserClaims session.Identity consent))) ∧
    (∀ id challenge audience,
      getUserClaims ⟨id, Any.map [("sub", Any.string "u1"), ("email", Any.string "e@x.com")]⟩
          ⟨challenge, ["openid", "email"], audience⟩ =
        [("sub", Any.string "u1"), ("email", Any.string "e@x.com")]) := by
  refine ⟨⟨((NewAcceptOAuth2ConsentRequest.SetGrantScope
    consent.RequestedScope).SetGrantAccessTokenAudience
      consent.RequestedAccessTokenAudience).SetSession
        (NewAcceptOAuth2ConsentRequestSession.SetIdToken
          (Any.map (getUserClaims session.Identity consent))), ?_, rfl, rfl, rfl⟩,
    fun _ _ _ => rfl⟩
  simp only [handleConsent, hs, hc]
  cases up.AcceptOAuth2ConsentRequest (r.URL.Query.Get "consent_challenge")
      (((NewAcceptOAuth2ConsentRequest.SetGrantScope
        consent.RequestedScope).SetGrantAccessTokenAudience
          consent.RequestedAccessTokenAudience).SetSession
            (NewAcceptOAuth2ConsentRequestSession.SetIdToken
              (Any.map (getUserClaims session.Identity consent)))) with
  | failed resp err => rfl
  | empty resp => rfl
  | ok accept resp =>
    dsimp only
    cases up.MarshalJSON accept with
    | error e => rfl
    | ok body =>
      dsimp only
      cases w.WriteHeader 200 <;> rfl

theorem handleConsent_accept_payload_witness :
    (handleConsent signedIn browserRequest freshWriter).calls =
      [Call.ToSession "ory_kratos_session=s1",
        Call.GetOAuth2ConsentRequest "cc1",
        Call.AcceptOAuth2ConsentRequest "cc1"
          ⟨["api"], ["openid", "email"],
            some ⟨Any.nil, Any.map [("sub", Any.string "u1"), ("email", Any.string "e@x.com")]⟩⟩] ∧
    ∃ body,
      (handleConsent signedIn browserRequest freshWriter).calls =
        [Call.ToSession (cookiesToString browserRequest.Cookies),
          Call.GetOAuth2ConsentRequest (browserRequest.URL.Query.Get "consent_challenge"),
          Call.AcceptOAuth2ConsentRequest (browserRequest.URL.Query.Get "consent_challenge")
            body] ∧
      body.GrantScope = ["openid", "email"] ∧
      body.GrantAccessTokenAudience = ["api"] ∧
      body.Session.map AcceptOAuth2ConsentRequestSession.IdToken =
        some (Any.map (getUserClaims
          ⟨"u1", Any.map [("sub", Any.string "u1"), ("email", Any.string "e@x.com")]⟩
          ⟨"cc1", ["openid", "email"], ["api"]⟩)) :=
  ⟨rfl,
    (handleConsent_accept_payload signedIn browserRequest freshWriter
      ⟨⟨"u1", Any.map [("sub", Any.string "u1"), ("email", Any.string "e@x.com")]⟩⟩
      (plainResponse 200 []) ⟨"cc1", ["openid", "email"], ["api"]⟩ (plainResponse 200 [])
      rfl rfl).1⟩

end KratosUI
